import Mathlib

/-!
Shallow embedding of raglite's retrieval-augmented generation module
(src/raglite/_rag.py): the token budget clipper, the retrieval pipeline
driver, the tool protocol manager and the two streaming orchestrators,
together with theorems checking the specification's claims about them.
-/

namespace Raglite

/-- Python str.startswith, decided on code points. -/
def strStartsWith (s pre : String) : Bool :=
  pre.toList.isPrefixOf s.toList

/-- Python substring membership test (needle in hay), decided on code points. -/
def strContainsSub (hay needle : String) : Bool :=
  (List.range (hay.length + 1)).any (fun i => needle.toList.isPrefixOf (hay.toList.drop i))

/-- Python exception kinds the embedded code can raise: ValueError carries the
formatted error message, typeError models applying a string operation to None,
and indexError models indexing into an empty list. -/
inductive PyError where
  | valueError (msg : String)
  | typeError
  | indexError
deriving DecidableEq

/-- Parsed JSON arguments of a search_knowledge_base tool call. The generated
schema declares query as required with type string or null, so the query key is
always present (none models JSON null); skip is an optional boolean that is only
present under the llama-cpp workaround schema (none models an absent key,
defaulted to false by the pop in _run_tools). -/
structure KwArgs where
  skip : Option Bool
  query : Option String
deriving DecidableEq

/-- The function part of a tool call: its name and its parsed arguments. -/
structure ToolCallFunction where
  name : String
  arguments : KwArgs
deriving DecidableEq

/-- A tool call produced by the completion backend. -/
structure ToolCall where
  id : String
  function : ToolCallFunction
deriving DecidableEq

/-- A chat message: role, content (none models JSON null), optional tool calls
and optional tool_call_id. -/
structure Message where
  role : String
  content : Option String
  tool_calls : Option (List ToolCall)
  tool_call_id : Option String
deriving DecidableEq

/-- Modelled from the spec: the configuration collaborator (src/raglite/_config.py
is not among the sources) — the model identifier and the reranker presence flag. -/
structure RAGLiteConfig where
  llm : String
  reranker : Bool
deriving DecidableEq

/-- Modelled from the spec: a ChunkSpan (src/raglite/_database.py is not among
the sources), a contiguous run of retrieved chunks presented as one context
unit, modelled by its text content. -/
structure ChunkSpan where
  content : String
deriving DecidableEq

/-- Modelled from the spec: the indexed JSON serialization of a ChunkSpan, pure
and deterministic in the span content and the supplied 1-based index. -/
def ChunkSpan.to_json (s : ChunkSpan) (index : Nat) : String :=
  "\x7b\"index\": " ++ toString index ++ ", \"content\": \"" ++ s.content ++ "\"\x7d"

/-- The tool schema list built by _get_tools holds one static function schema
for search_knowledge_base; its only input-dependent part is whether the
llama-cpp auto tool use workaround adds the boolean skip parameter, so the
schema value is modelled by that flag. -/
structure ToolsSchema where
  includeSkip : Bool
deriving DecidableEq

/-- The tool_choice value returned by _get_tools: the string auto, or the object
that forces the named function. -/
inductive ToolChoiceValue where
  | auto
  | forced (name : String)
deriving DecidableEq

/-- A streamed completion chunk; the orchestrator only inspects
choices[0].delta.content, so the chunk is modelled by that field. -/
structure Chunk where
  delta_content : Option String
deriving DecidableEq

/-- The message reconstructed by litellm's stream_chunk_builder
(response.choices[0].message), of which the orchestrator reads .tool_calls and
.to_dict(). -/
structure BuiltMessage where
  tool_calls : Option (List ToolCall)
  to_dict : Message
deriving DecidableEq

/-- External collaborators of the orchestrator: litellm completion and
acompletion (modelled as returning the whole list of streamed chunks),
stream_chunk_builder composed with the choices[0].message projection, json.dumps
applied to the tools list, get_context_size, supports_function_calling, and the
search collaborators consumed by retrieve_rag_context. -/
structure Backend where
  get_context_size : RAGLiteConfig → Nat
  supports_function_calling : String → Option String → Bool
  completion : String → List Message → Option ToolsSchema → Option ToolChoiceValue → List Chunk
  acompletion : String → List Message → Option ToolsSchema → Option ToolChoiceValue → List Chunk
  dumps_tools : ToolsSchema → String
  build : List Chunk → List Message → BuiltMessage
  search : String → Nat → RAGLiteConfig → List Nat × List Int
  rerank_chunks : String → List Nat → RAGLiteConfig → List Nat
  retrieve_chunk_spans : List Nat → Option (List Int) → RAGLiteConfig → List ChunkSpan

/-- Approximate token count of one message: the length of its content (None and
a missing key both read as the empty string) integer-divided by 3. -/
def approxTokens (m : Message) : Nat :=
  (m.content.getD "").length / 3

/-- Running cumulative sums of a list of naturals, starting from acc. -/
def cumsumFrom (acc : Nat) : List Nat → List Nat
  | [] => []
  | x :: xs => (acc + x) :: cumsumFrom (acc + x) xs

/-- np.cumsum on a list of naturals. -/
def cumsum (l : List Nat) : List Nat := cumsumFrom 0 l

/-- Left clip a messages array to avoid hitting the context limit. The reverse
cumulative sums are nondecreasing, so np.searchsorted with side left is the
index of the first reverse cumulative sum that reaches max_tokens; the Python
negative-index slice messages[-i:] is the whole list when i = 0 and the last i
messages otherwise. -/
def _clip (messages : List Message) (max_tokens : Nat) : List Message :=
  let cum_tokens := cumsum ((messages.map approxTokens).reverse)
  let first_message := cum_tokens.findIdx (fun c => decide (max_tokens ≤ c))
  if first_message = 0 then messages
  else messages.drop (messages.length - first_message)

/-- Retrieve context for RAG: over-fetch three extra batches of candidates when
a reranker is configured, rerank, truncate to num_chunks, and expand the
retained chunks into contiguous spans. The search, rerank and span collaborators
live outside this module and are taken as arguments. -/
def retrieve_rag_context
    (search : String → Nat → RAGLiteConfig → List Nat × List Int)
    (rerank_chunks : String → List Nat → RAGLiteConfig → List Nat)
    (retrieve_chunk_spans : List Nat → Option (List Int) → RAGLiteConfig → List ChunkSpan)
    (query : String) (num_chunks : Nat) (chunk_neighbors : Option (List Int))
    (config : RAGLiteConfig) : List ChunkSpan :=
  let extra_chunks := if config.reranker then 3 * num_chunks else 0
  let chunk_ids := (search query (num_chunks + extra_chunks) config).1
  let chunks := rerank_chunks query chunk_ids config
  retrieve_chunk_spans (chunks.take num_chunks) chunk_neighbors config

/-- The ValueError message raised by _get_tools when no RAG context is embedded
and the model cannot call functions. -/
def configErrorMessage : String :=
  "You must either explicitly provide RAG context in the last message, or use an LLM that supports function calling."

/-- The provider hint passed to supports_function_calling. -/
def llmProvider (config : RAGLiteConfig) : Option String :=
  if strStartsWith config.llm "llama-cpp" then some "llama-cpp-python" else none

/-- Get tools to search the knowledge base if no RAG context is provided in the
messages. Reading the content of the final message yields None when the content
is null, and the subsequent substring tests then raise a TypeError. -/
def _get_tools (supports_function_calling : String → Option String → Bool)
    (messages : List Message) (config : RAGLiteConfig) :
    Except PyError (Option ToolsSchema × Option ToolChoiceValue) :=
  match messages.getLast? with
  | none => Except.error PyError.indexError
  | some last =>
    match last.content with
    | none => Except.error PyError.typeError
    | some final_message =>
      let messages_contain_rag_context :=
        strContainsSub final_message "</document>" || strContainsSub final_message "from_chunk_id"
      let llm_provider := llmProvider config
      let llm_supports_function_calling := supports_function_calling config.llm llm_provider
      if !messages_contain_rag_context && !llm_supports_function_calling then
        Except.error (PyError.valueError configErrorMessage)
      else
        let auto_tool_use_workaround := decide (llm_provider = some "llama-cpp-python")
        let tools : Option ToolsSchema :=
          if !messages_contain_rag_context then some ⟨auto_tool_use_workaround⟩ else none
        let tool_choice : Option ToolChoiceValue :=
          match tools with
          | some _ =>
            some (if auto_tool_use_workaround then ToolChoiceValue.forced "search_knowledge_base"
                  else ToolChoiceValue.auto)
          | none => none
        Except.ok (tools, tool_choice)

/-- The ValueError message raised by _run_tools on an unrecognized function. -/
def unknownFunctionMessage (name : String) : String :=
  "Unknown function `" ++ name ++ "`."

/-- Python truthiness of the parsed query value: null and the empty string are
falsy. -/
def queryTruthy : Option String → Bool
  | none => false
  | some s => decide (s ≠ "")

/-- The tool result content built for a non-skipped search: the retrieved spans
serialized to JSON with 1-based indices in span order, joined with commas inside
a documents object. -/
def documentsJson (spans : List ChunkSpan) : String :=
  "\x7b\"documents\": [" ++
    String.intercalate ", " (spans.enum.map (fun p => ChunkSpan.to_json p.2 (p.1 + 1))) ++
    "]\x7d"

/-- Run tools to search the knowledge base for RAG context. The retrieval
pipeline is invoked through the retrieve argument (retrieve_rag_context with the
parsed query and the config); a skipped or empty query yields the empty JSON
object, and an unrecognized function name raises a ValueError that discards the
tool messages accumulated so far. -/
def _run_tools (retrieve : String → RAGLiteConfig → List ChunkSpan) :
    List ToolCall → RAGLiteConfig → Except PyError (List Message)
  | [], _ => Except.ok []
  | tool_call :: rest, config =>
    if tool_call.function.name = "search_knowledge_base" then
      let kwargs := tool_call.function.arguments
      let skip := kwargs.skip.getD false
      let content :=
        if !skip && queryTruthy kwargs.query then
          documentsJson (retrieve (kwargs.query.getD "") config)
        else "\x7b\x7d"
      match _run_tools retrieve rest config with
      | Except.error e => Except.error e
      | Except.ok rest_messages =>
        Except.ok (⟨"tool", some content, none, some tool_call.id⟩ :: rest_messages)
    else
      Except.error (PyError.valueError (unknownFunctionMessage tool_call.function.name))

/-- The directive appended to the final message content for llama-cpp-python
models, with json.dumps of the tools list supplied by the backend. -/
def toolsDirective (b : Backend) (t : ToolsSchema) : String :=
  "\n\nDecide whether to use or skip these tools in your response:\n" ++ b.dumps_tools t

/-- retrieve_rag_context with its default num_chunks, chunk_neighbors and search
method, as invoked by _run_tools with only the query and config keyword
arguments bound. -/
def defaultRetrieve (b : Backend) (query : String) (config : RAGLiteConfig) : List ChunkSpan :=
  retrieve_rag_context b.search b.rerank_chunks b.retrieve_chunk_spans query 5 (some [-1, 1]) config

/-- Outcome of driving a rag generator to completion: the tokens yielded in
order and the final message history, or a raised error together with the tokens
yielded and the in-place history mutations applied before the raise. -/
inductive RagOutcome where
  | ok (tokens : List String) (history : List Message)
  | err (e : PyError) (tokens : List String) (history : List Message)
deriving DecidableEq

/-- The blocking orchestrator rag, driven to completion. The in-place content
update of the llama-cpp workaround mutates the final message object shared
between the clipped slice and the caller's history, so both lists are rebuilt
with the updated last message; the update raises a TypeError when that content
is null. Tokens are the delta contents of the streamed chunks that are strings. -/
def rag (b : Backend) (messages : List Message) (config : RAGLiteConfig) : RagOutcome :=
  let max_tokens := b.get_context_size config
  match _get_tools b.supports_function_calling messages config with
  | Except.error e => RagOutcome.err e [] messages
  | Except.ok (tools, tool_choice) =>
    let clipped_messages := _clip messages max_tokens
    let updated : Except PyError (List Message × List Message) :=
      match tools, strStartsWith config.llm "llama-cpp-python" with
      | some t, true =>
        match clipped_messages.getLast? with
        | none => Except.error PyError.indexError
        | some m =>
          match m.content with
          | none => Except.error PyError.typeError
          | some c =>
            let m2 := { m with content := some (c ++ toolsDirective b t) }
            Except.ok (clipped_messages.dropLast ++ [m2], messages.dropLast ++ [m2])
      | _, _ => Except.ok (clipped_messages, messages)
    match updated with
    | Except.error e => RagOutcome.err e [] messages
    | Except.ok (clipped1, messages1) =>
      let chunks := b.completion config.llm clipped1 tools tool_choice
      let tokens := chunks.filterMap Chunk.delta_content
      let response := b.build chunks messages1
      match response.tool_calls with
      | some (tc :: tcs) =>
        let messages2 := messages1 ++ [response.to_dict]
        match _run_tools (defaultRetrieve b) (tc :: tcs) config with
        | Except.error e => RagOutcome.err e tokens messages2
        | Except.ok tool_messages =>
          let messages3 := messages2 ++ tool_messages
          let chunks2 := b.completion config.llm (_clip messages3 max_tokens) none none
          let tokens2 := chunks2.filterMap Chunk.delta_content
          let response2 := b.build chunks2 messages3
          RagOutcome.ok (tokens ++ tokens2) (messages3 ++ [response2.to_dict])
      | _ =>
        let response2 := b.build chunks messages1
        RagOutcome.ok tokens (messages1 ++ [response2.to_dict])

/-- The cooperative orchestrator async_rag, driven to completion: the same state
machine as rag, with the streamed completions requested from the asynchronous
acompletion entry point of the backend. -/
def async_rag (b : Backend) (messages : List Message) (config : RAGLiteConfig) : RagOutcome :=
  let max_tokens := b.get_context_size config
  match _get_tools b.supports_function_calling messages config with
  | Except.error e => RagOutcome.err e [] messages
  | Except.ok (tools, tool_choice) =>
    let clipped_messages := _clip messages max_tokens
    let updated : Except PyError (List Message × List Message) :=
      match tools, strStartsWith config.llm "llama-cpp-python" with
      | some t, true =>
        match clipped_messages.getLast? with
        | none => Except.error PyError.indexError
        | some m =>
          match m.content with
          | none => Except.error PyError.typeError
          | some c =>
            let m2 := { m with content := some (c ++ toolsDirective b t) }
            Except.ok (clipped_messages.dropLast ++ [m2], messages.dropLast ++ [m2])
      | _, _ => Except.ok (clipped_messages, messages)
    match updated with
    | Except.error e => RagOutcome.err e [] messages
    | Except.ok (clipped1, messages1) =>
      let chunks := b.acompletion config.llm clipped1 tools tool_choice
      let tokens := chunks.filterMap Chunk.delta_content
      let response := b.build chunks messages1
      match response.tool_calls with
      | some (tc :: tcs) =>
        let messages2 := messages1 ++ [response.to_dict]
        match _run_tools (defaultRetrieve b) (tc :: tcs) config with
        | Except.error e => RagOutcome.err e tokens messages2
        | Except.ok tool_messages =>
          let messages3 := messages2 ++ tool_messages
          let chunks2 := b.acompletion config.llm (_clip messages3 max_tokens) none none
          let tokens2 := chunks2.filterMap Chunk.delta_content
          let response2 := b.build chunks2 messages3
          RagOutcome.ok (tokens ++ tokens2) (messages3 ++ [response2.to_dict])
      | _ =>
        let response2 := b.build chunks messages1
        RagOutcome.ok tokens (messages1 ++ [response2.to_dict])

/-! Concrete fixtures used by the witnesses and counterexamples below. -/

/-- A plain user message without document markers. -/
def exUser : Message := ⟨"user", some "hi", none, none⟩

/-- A plain assistant reply. -/
def exAsst : Message := ⟨"assistant", some "ok", none, none⟩

/-- A configuration for a non llama-cpp model. -/
def exCfg : RAGLiteConfig := ⟨"gpt-4", false⟩

/-- A message whose approximate token cost is 15 div 3 = 5. -/
def exClipA : Message := ⟨"user", some "aaaaaaaaaaaaaaa", none, none⟩

/-- A message with empty content, of approximate token cost 0. -/
def exClipB : Message := ⟨"user", some "", none, none⟩

/-- A tool call requesting an unknown function. -/
def exBadCall : ToolCall := ⟨"call1", ⟨"delete_database", ⟨none, none⟩⟩⟩

/-- The tool call message appended to the history before tools run. -/
def exToolCallMsg : Message := ⟨"assistant", none, some [exBadCall], none⟩

/-- A backend whose first completion yields a tool call for an unknown
function. -/
def exB5 : Backend where
  get_context_size := fun _ => 100
  supports_function_calling := fun _ _ => true
  completion := fun _ _ _ _ => []
  acompletion := fun _ _ _ _ => []
  dumps_tools := fun _ => "[]"
  build := fun _ _ => ⟨some [exBadCall], exToolCallMsg⟩
  search := fun _ _ _ => ([], [])
  rerank_chunks := fun _ ids _ => ids
  retrieve_chunk_spans := fun _ _ _ => []

/-- A llama-cpp-python configuration. -/
def exCfg9 : RAGLiteConfig := ⟨"llama-cpp-python/llama", false⟩

/-- A backend that streams one token and reconstructs a plain assistant reply
without tool calls. -/
def exB9 : Backend where
  get_context_size := fun _ => 100
  supports_function_calling := fun _ _ => true
  completion := fun _ _ _ _ => [⟨some "ok"⟩]
  acompletion := fun _ _ _ _ => [⟨some "ok"⟩]
  dumps_tools := fun _ => "[]"
  build := fun _ _ => ⟨none, exAsst⟩
  search := fun _ _ _ => ([], [])
  rerank_chunks := fun _ ids _ => ids
  retrieve_chunk_spans := fun _ _ _ => []

/-- The user message after the llama-cpp workaround appended its directive. -/
def exUserMutated : Message :=
  ⟨"user", some "hi\n\nDecide whether to use or skip these tools in your response:\n[]", none, none⟩

/-- A retrieval function fixture returning two fixed spans. -/
def exRetrieve (_query : String) (_config : RAGLiteConfig) : List ChunkSpan :=
  [⟨"spanA"⟩, ⟨"spanB"⟩]

/-- A search_knowledge_base call with skip set to true and a null query. -/
def exSkipCall : ToolCall := ⟨"id1", ⟨"search_knowledge_base", ⟨some true, none⟩⟩⟩

/-- A search_knowledge_base call with a non-empty query and no skip key. -/
def exQueryCall : ToolCall := ⟨"id2", ⟨"search_knowledge_base", ⟨none, some "capital of France"⟩⟩⟩

/-- A user message that embeds RAG context through a document closing tag. -/
def exDocMsg : Message := ⟨"user", some "x</document>", none, none⟩

/-! Helper lemmas about the clipper. -/

/-- Running cumulative sums preserve the length of the list. -/
theorem cumsumFrom_length (acc : Nat) (l : List Nat) :
    (cumsumFrom acc l).length = l.length := by
  induction l generalizing acc with
  | nil => rfl
  | cons x xs ih => simp [cumsumFrom, ih]

/-- Every running cumulative sum is at most the start plus the total sum. -/
theorem mem_cumsumFrom_le (acc : Nat) (l : List Nat) (x : Nat)
    (hx : x ∈ cumsumFrom acc l) : x ≤ acc + l.sum := by
  induction l generalizing acc with
  | nil => cases hx
  | cons y ys ih =>
    rw [cumsumFrom] at hx
    rcases List.mem_cons.mp hx with h | h
    · subst h
      rw [List.sum_cons]
      omega
    · have := ih (acc + y) h
      rw [List.sum_cons]
      omega

/-- findIdx returns the length when the predicate holds nowhere. -/
theorem findIdx_eq_length_of_false {α : Type} (p : α → Bool) (l : List α)
    (h : ∀ x ∈ l, p x = false) : l.findIdx p = l.length := by
  induction l with
  | nil => rfl
  | cons a t ih =>
    rw [List.findIdx_cons, h a (List.mem_cons_self a t),
      ih (fun x hx => h x (List.mem_cons_of_mem a hx))]
    rfl

/-- The clipper always returns a suffix of its input. -/
theorem clip_suffix (messages : List Message) (max_tokens : Nat) :
    _clip messages max_tokens <:+ messages := by
  simp only [_clip]
  split
  · exact List.suffix_refl messages
  · exact ⟨messages.take (messages.length -
      (cumsum ((messages.map approxTokens).reverse)).findIdx (fun c => decide (max_tokens ≤ c))),
      List.take_append_drop _ _⟩

/-- The clipper never empties a non-empty history. -/
theorem clip_ne_nil (messages : List Message) (max_tokens : Nat)
    (h : messages ≠ []) : _clip messages max_tokens ≠ [] := by
  simp only [_clip]
  split
  · exact h
  · next hne =>
    apply List.ne_nil_of_length_pos
    rw [List.length_drop]
    have hle : (cumsum ((messages.map approxTokens).reverse)).findIdx
        (fun c => decide (max_tokens ≤ c)) ≤ messages.length := by
      have h1 := @List.findIdx_le_length Nat (fun c => decide (max_tokens ≤ c))
        (cumsum ((messages.map approxTokens).reverse))
      have h2 : (cumsum ((messages.map approxTokens).reverse)).length = messages.length := by
        rw [cumsum, cumsumFrom_length, List.length_reverse, List.length_map]
      omega
    have hpos : 0 < messages.length := List.length_pos.mpr h
    omega

/-- A non-empty suffix ends in the same optional last element as the full
list. -/
theorem suffix_getLast?_eq {α : Type} {l1 l2 : List α} (h : l2 <:+ l1)
    (hne : l2 ≠ []) : l1.getLast? = l2.getLast? := by
  obtain ⟨t, rfl⟩ := h
  exact List.getLast?_append_of_ne_nil t hne

/-! Helper lemmas about the tool runner. -/

/-- _run_tools fails with the unknown-function ValueError whenever some tool
call names an unrecognized function. -/
theorem run_tools_err_of_bad
    (retrieve : String → RAGLiteConfig → List ChunkSpan) (tcs : List ToolCall)
    (config : RAGLiteConfig)
    (h : ∃ t ∈ tcs, t.function.name ≠ "search_knowledge_base") :
    ∃ badname, _run_tools retrieve tcs config
      = Except.error (PyError.valueError (unknownFunctionMessage badname)) := by
  induction tcs with
  | nil =>
    obtain ⟨t, ht, _⟩ := h
    cases ht
  | cons tc rest ih =>
    by_cases hn : tc.function.name = "search_knowledge_base"
    · obtain ⟨t, ht, hbad⟩ := h
      rcases List.mem_cons.mp ht with rfl | hmem
      · exact absurd hn hbad
      · obtain ⟨badname, heq⟩ := ih ⟨t, hmem, hbad⟩
        exact ⟨badname, by simp [_run_tools, hn, heq]⟩
    · exact ⟨tc.function.name, by simp [_run_tools, hn]⟩

/-- A successful _run_tools run yields one tool message per tool call, in call
order, each carrying role tool and the id of its originating call. -/
theorem run_tools_shape
    (retrieve : String → RAGLiteConfig → List ChunkSpan) (tcs : List ToolCall)
    (config : RAGLiteConfig) (out : List Message)
    (h : _run_tools retrieve tcs config = Except.ok out) :
    out.map (fun m => m.tool_call_id) = tcs.map (fun t => some t.id) ∧
    out.map (fun m => m.role) = tcs.map (fun _ => "tool") := by
  induction tcs generalizing out with
  | nil =>
    simp only [_run_tools] at h
    injection h with h
    subst h
    exact ⟨rfl, rfl⟩
  | cons tc rest ih =>
    simp only [_run_tools] at h
    by_cases hn : tc.function.name = "search_knowledge_base"
    · rw [if_pos hn] at h
      cases hrec : _run_tools retrieve rest config with
      | error e =>
        rw [hrec] at h
        exact Except.noConfusion h
      | ok rest_messages =>
        rw [hrec] at h
        injection h with h
        subst h
        obtain ⟨h1, h2⟩ := ih rest_messages hrec
        simp [h1, h2]
    · rw [if_neg hn] at h
      exact Except.noConfusion h

/-! Claim theorems. -/

/-- C1 (counterexample): a two-message history whose cumulative approximate
token cost is exactly the ceiling of 5 is clipped down to its final message, so
the claim's inclusive cost bound does not guarantee an unchanged history. -/
theorem clip_total_eq_budget_cex :
    ([exClipA, exClipB].map approxTokens).sum ≤ 5 ∧
      _clip [exClipA, exClipB] 5 ≠ [exClipA, exClipB] := by
  decide

/-- C1 (amended): for every message history whose cumulative approximate token
cost (sum over messages of len(content) div 3) is strictly below the token
ceiling, _clip returns the history unchanged. -/
theorem clip_under_budget (messages : List Message) (max_tokens : Nat)
    (h : (messages.map approxTokens).sum < max_tokens) :
    _clip messages max_tokens = messages := by
  simp only [_clip]
  have hall : ∀ x ∈ cumsum ((messages.map approxTokens).reverse),
      (fun c => decide (max_tokens ≤ c)) x = false := by
    intro x hx
    have hle := mem_cumsumFrom_le 0 _ x hx
    rw [List.sum_reverse] at hle
    simp only [decide_eq_false_iff_not]
    omega
  rw [findIdx_eq_length_of_false _ _ hall, cumsum, cumsumFrom_length,
    List.length_reverse, List.length_map]
  split
  · rfl
  · next hne =>
    have : messages.length - messages.length = 0 := Nat.sub_self _
    rw [this, List.drop_zero]

/-- C1 (witness): a history of total approximate cost 5 stays unchanged under a
ceiling of 6. -/
theorem clip_under_budget_witness :
    _clip [exClipA, exClipB] 6 = [exClipA, exClipB] :=
  clip_under_budget [exClipA, exClipB] 6 (by decide)

/-- C8: for every non-empty message history and every token ceiling, _clip
returns a non-empty suffix of the history, even when the approximate cost of
the final message alone exceeds the ceiling. -/
theorem clip_nonempty_suffix (messages : List Message) (max_tokens : Nat)
    (h : messages ≠ []) :
    _clip messages max_tokens ≠ [] ∧ _clip messages max_tokens <:+ messages :=
  ⟨clip_ne_nil messages max_tokens h, clip_suffix messages max_tokens⟩

/-- C8 (witness): a single message of approximate cost 5 under a ceiling of 0
still yields a non-empty suffix. -/
theorem clip_nonempty_suffix_witness :
    _clip [exClipA] 0 ≠ [] ∧ _clip [exClipA] 0 <:+ [exClipA] :=
  clip_nonempty_suffix [exClipA] 0 (by decide)

/-- C3 (counterexample): with a reranker configured and num_chunks = 1, a probe
search backend that echoes the requested candidate count shows that 4
candidates are requested, not the 3 the claim states. -/
theorem retrieve_overfetch_cex :
    retrieve_rag_context (fun _ n _ => ([n], [])) (fun _ ids _ => ids)
        (fun ids _ _ => ids.map (fun i => ⟨toString i⟩)) "q" 1 none ⟨"gpt-4", true⟩
      = [⟨"4"⟩] ∧
    retrieve_rag_context (fun _ n _ => ([n], [])) (fun _ ids _ => ids)
        (fun ids _ _ => ids.map (fun i => ⟨toString i⟩)) "q" 1 none ⟨"gpt-4", true⟩
      ≠ [⟨"3"⟩] := by
  decide

/-- C3 (amended): retrieve_rag_context requests num_chunks + 3 * num_chunks
(that is, 4 * num_chunks) candidates from the search backend when a reranker is
configured and exactly num_chunks otherwise, and the reranked chunks are
truncated to num_chunks before span expansion. -/
theorem retrieve_num_results
    (search : String → Nat → RAGLiteConfig → List Nat × List Int)
    (rerank_chunks : String → List Nat → RAGLiteConfig → List Nat)
    (retrieve_chunk_spans : List Nat → Option (List Int) → RAGLiteConfig → List ChunkSpan)
    (query : String) (num_chunks : Nat) (chunk_neighbors : Option (List Int))
    (config : RAGLiteConfig) :
    retrieve_rag_context search rerank_chunks retrieve_chunk_spans query num_chunks
        chunk_neighbors config =
      retrieve_chunk_spans
        ((rerank_chunks query
            (search query (num_chunks + (if config.reranker then 3 * num_chunks else 0))
              config).1 config).take num_chunks)
        chunk_neighbors config := rfl

/-- C10: on a valid input permitted by the data model — a non-empty history
whose final message has null content — _get_tools neither returns a tools pair
nor raises the configuration ValueError: the substring membership tests applied
to the null content raise a TypeError, for any model capability. -/
theorem get_tools_none_content_type_error :
    _get_tools (fun _ _ => true) [⟨"user", none, none, none⟩] exCfg
      = Except.error PyError.typeError := rfl

/-- C6: whenever the final message's text content contains neither document
marker and the configured model does not support function calling, _get_tools
fails with the configuration ValueError. -/
theorem get_tools_configuration_error
    (supports : String → Option String → Bool) (messages : List Message)
    (config : RAGLiteConfig) (m : Message) (s : String)
    (hlast : messages.getLast? = some m) (hc : m.content = some s)
    (h1 : strContainsSub s "</document>" = false)
    (h2 : strContainsSub s "from_chunk_id" = false)
    (hsup : supports config.llm (llmProvider config) = false) :
    _get_tools supports messages config
      = Except.error (PyError.valueError configErrorMessage) := by
  simp [_get_tools, hlast, hc, h1, h2, hsup]

/-- C6 (witness): a history ending in plain text with a model that cannot call
functions yields the configuration ValueError. -/
theorem get_tools_configuration_error_witness :
    _get_tools (fun _ _ => false) [exUser] exCfg
      = Except.error (PyError.valueError configErrorMessage) :=
  get_tools_configuration_error (fun _ _ => false) [exUser] exCfg exUser "hi"
    rfl rfl (by decide) (by decide) rfl

/-- C7: whenever the final message's content contains a document marker (a
document closing tag or the context-identifier substring), _get_tools returns
(none, none), for every configuration and model capability. -/
theorem get_tools_rag_context_none
    (supports : String → Option String → Bool) (messages : List Message)
    (config : RAGLiteConfig) (m : Message) (s : String)
    (hlast : messages.getLast? = some m) (hc : m.content = some s)
    (h : strContainsSub s "</document>" = true ∨ strContainsSub s "from_chunk_id" = true) :
    _get_tools supports messages config = Except.ok (none, none) := by
  have hcontains : (strContainsSub s "</document>" || strContainsSub s "from_chunk_id") = true := by
    rcases h with h | h <;> simp [h]
  simp [_get_tools, hlast, hc, hcontains]

/-- C7 (witness): a history whose final message embeds a document tag yields no
tools even for a model without function-calling support. -/
theorem get_tools_rag_context_none_witness :
    _get_tools (fun _ _ => false) [exDocMsg] exCfg = Except.ok (none, none) :=
  get_tools_rag_context_none (fun _ _ => false) [exDocMsg] exCfg exDocMsg
    "x</document>" rfl rfl (Or.inl (by decide))

/-- C4: executing a single search_knowledge_base tool call produces one tool
message whose content is exactly the empty JSON object when skip is true or the
query is null or empty, and otherwise is the documents object serializing the
spans retrieved for the query with 1-based indices in span order. -/
theorem run_tools_search_content
    (retrieve : String → RAGLiteConfig → List ChunkSpan) (tc : ToolCall)
    (config : RAGLiteConfig)
    (hname : tc.function.name = "search_knowledge_base") :
    ((tc.function.arguments.skip = some true ∨ tc.function.arguments.query = none ∨
        tc.function.arguments.query = some "") →
      _run_tools retrieve [tc] config =
        Except.ok [⟨"tool", some "\x7b\x7d", none, some tc.id⟩]) ∧
    (∀ q : String, tc.function.arguments.skip ≠ some true →
      tc.function.arguments.query = some q → q ≠ "" →
      _run_tools retrieve [tc] config =
        Except.ok [⟨"tool", some (documentsJson (retrieve q config)), none, some tc.id⟩]) := by
  constructor
  · intro h
    rcases h with h | h | h
    · simp [_run_tools, hname, h]
    · simp [_run_tools, hname, h, queryTruthy]
    · simp [_run_tools, hname, h, queryTruthy]
  · intro q hskip hq hqne
    have hsk : tc.function.arguments.skip.getD false = false := by
      cases hs : tc.function.arguments.skip with
      | none => rfl
      | some b =>
        cases b with
        | false => rfl
        | true => exact absurd hs hskip
    simp [_run_tools, hname, hq, hsk, queryTruthy, hqne]

/-- C4 (witness): a skipped call yields exactly the empty JSON object, and a
call with a non-empty query yields the serialized documents object. -/
theorem run_tools_search_content_witness :
    _run_tools exRetrieve [exSkipCall] exCfg =
      Except.ok [⟨"tool", some "\x7b\x7d", none, some "id1"⟩] ∧
    _run_tools exRetrieve [exQueryCall] exCfg =
      Except.ok [⟨"tool",
        some (documentsJson (exRetrieve "capital of France" exCfg)), none, some "id2"⟩] :=
  ⟨(run_tools_search_content exRetrieve exSkipCall exCfg rfl).1 (Or.inl rfl),
    (run_tools_search_content exRetrieve exQueryCall exCfg rfl).2
      "capital of France" (by decide) rfl (by decide)⟩

/-- C2: for every message history and configuration, the cooperative
orchestrator async_rag emits the same tokens in the same order and produces the
same final message history as the blocking orchestrator rag, given the same
responses from the completion backend and the other collaborators. -/
theorem async_rag_matches_rag (b : Backend) (messages : List Message)
    (config : RAGLiteConfig) (h : b.acompletion = b.completion) :
    async_rag b messages config = rag b messages config := by
  unfold async_rag rag
  rw [h]

/-- C2 (witness): on a concrete backend whose synchronous and asynchronous
completion entries agree, the two orchestrators coincide. -/
theorem async_rag_matches_rag_witness :
    async_rag exB9 [exUser] exCfg9 = rag exB9 [exUser] exCfg9 :=
  async_rag_matches_rag exB9 [exUser] exCfg9 rfl

/-- C5: when the reconstructed first-phase response carries tool calls of which
one names an unrecognized function, the blocking orchestrator fails with the
unknown-function ValueError and appends no tool-result message: beyond its
input the history holds only the already-appended tool-call message. -/
theorem rag_unknown_tool_error (b : Backend) (messages : List Message)
    (config : RAGLiteConfig) (tools : Option ToolsSchema)
    (tool_choice : Option ToolChoiceValue) (r : BuiltMessage)
    (tc : ToolCall) (tcs : List ToolCall)
    (hg : _get_tools b.supports_function_calling messages config
      = Except.ok (tools, tool_choice))
    (hp : strStartsWith config.llm "llama-cpp-python" = false)
    (hr : b.build (b.completion config.llm (_clip messages (b.get_context_size config))
        tools tool_choice) messages = r)
    (hcalls : r.tool_calls = some (tc :: tcs))
    (hbad : ∃ t ∈ tc :: tcs, t.function.name ≠ "search_knowledge_base") :
    ∃ badname,
      rag b messages config =
        RagOutcome.err (PyError.valueError (unknownFunctionMessage badname))
          ((b.completion config.llm (_clip messages (b.get_context_size config))
              tools tool_choice).filterMap Chunk.delta_content)
          (messages ++ [r.to_dict]) := by
  obtain ⟨badname, herr⟩ := run_tools_err_of_bad (defaultRetrieve b) (tc :: tcs) config hbad
  refine ⟨badname, ?_⟩
  simp only [rag, hg]
  rw [hp]
  cases tools with
  | none =>
    simp only [hr, hcalls, herr]
  | some t =>
    simp only [hr, hcalls, herr]

/-- C5 (witness): a backend whose model requests delete_database makes the run
fail with the unknown-function ValueError, leaving only the tool-call message
appended. -/
theorem rag_unknown_tool_error_witness :
    ∃ badname,
      rag exB5 [exUser] exCfg =
        RagOutcome.err (PyError.valueError (unknownFunctionMessage badname))
          ((exB5.completion exCfg.llm (_clip [exUser] (exB5.get_context_size exCfg))
              (some ⟨false⟩) (some ToolChoiceValue.auto)).filterMap Chunk.delta_content)
          ([exUser] ++ [exToolCallMsg]) :=
  rag_unknown_tool_error exB5 [exUser] exCfg (some ⟨false⟩) (some ToolChoiceValue.auto)
    ⟨some [exBadCall], exToolCallMsg⟩ exBadCall []
    rfl rfl rfl rfl ⟨exBadCall, List.mem_cons_self exBadCall [], by decide⟩

/-- C9 (amended): a completed orchestrator run mutates the history only by
appending — either one reconstructed assistant message, or one tool-call
message, one tool-result message per tool call in call order, and one final
assistant message — except that when tools are offered to a llama-cpp-python
model, the content of the final entry message is additionally extended in place
with the tool-schema directive. -/
theorem rag_append_shape (b : Backend) (messages : List Message)
    (config : RAGLiteConfig) (tokens : List String) (final : List Message)
    (h : rag b messages config = RagOutcome.ok tokens final) :
    ∃ entry : List Message,
      (entry = messages ∨
        ∃ m c t, messages.getLast? = some m ∧ m.content = some c ∧
          entry = messages.dropLast ++ [{ m with content := some (c ++ toolsDirective b t) }]) ∧
      ((∃ a, final = entry ++ [a]) ∨
        ∃ resp calls tms a,
          final = entry ++ resp.to_dict :: (tms ++ [a]) ∧
          BuiltMessage.tool_calls resp = some calls ∧
          tms.map (fun mm => mm.tool_call_id) = calls.map (fun c0 => some c0.id) ∧
          tms.map (fun mm => mm.role) = calls.map (fun _ => "tool")) := by
  simp only [rag] at h
  cases hget : _get_tools b.supports_function_calling messages config with
  | error e => rw [hget] at h; exact RagOutcome.noConfusion h
  | ok p =>
    obtain ⟨tools, tool_choice⟩ := p
    rw [hget] at h
    simp only [] at h
    cases hsw : strStartsWith config.llm "llama-cpp-python" with
    | false =>
      rw [hsw] at h
      cases tools with
      | none =>
        simp only [] at h
        rcases hcalls : (b.build (b.completion config.llm
            (_clip messages (b.get_context_size config)) none tool_choice)
            messages).tool_calls with _ | ⟨_ | ⟨tc, tcs⟩⟩
        · rw [hcalls] at h
          simp only [] at h
          injection h with h1 h2
          subst h2
          exact ⟨messages, Or.inl rfl, Or.inl ⟨_, rfl⟩⟩
        · rw [hcalls] at h
          simp only [] at h
          injection h with h1 h2
          subst h2
          exact ⟨messages, Or.inl rfl, Or.inl ⟨_, rfl⟩⟩
        · rw [hcalls] at h
          simp only [] at h
          cases hrun : _run_tools (defaultRetrieve b) (tc :: tcs) config with
          | error e => rw [hrun] at h; exact RagOutcome.noConfusion h
          | ok tms =>
            rw [hrun] at h
            simp only [List.append_assoc, List.singleton_append] at h
            injection h with h1 h2
            subst h2
            obtain ⟨hs1, hs2⟩ := run_tools_shape (defaultRetrieve b) (tc :: tcs) config tms hrun
            exact ⟨messages, Or.inl rfl, Or.inr ⟨_, tc :: tcs, tms, _, rfl, hcalls, hs1, hs2⟩⟩
      | some t =>
        simp only [] at h
        rcases hcalls : (b.build (b.completion config.llm
            (_clip messages (b.get_context_size config)) (some t) tool_choice)
            messages).tool_calls with _ | ⟨_ | ⟨tc, tcs⟩⟩
        · rw [hcalls] at h
          simp only [] at h
          injection h with h1 h2
          subst h2
          exact ⟨messages, Or.inl rfl, Or.inl ⟨_, rfl⟩⟩
        · rw [hcalls] at h
          simp only [] at h
          injection h with h1 h2
          subst h2
          exact ⟨messages, Or.inl rfl, Or.inl ⟨_, rfl⟩⟩
        · rw [hcalls] at h
          simp only [] at h
          cases hrun : _run_tools (defaultRetrieve b) (tc :: tcs) config with
          | error e => rw [hrun] at h; exact RagOutcome.noConfusion h
          | ok tms =>
            rw [hrun] at h
            simp only [List.append_assoc, List.singleton_append] at h
            injection h with h1 h2
            subst h2
            obtain ⟨hs1, hs2⟩ := run_tools_shape (defaultRetrieve b) (tc :: tcs) config tms hrun
            exact ⟨messages, Or.inl rfl, Or.inr ⟨_, tc :: tcs, tms, _, rfl, hcalls, hs1, hs2⟩⟩
    | true =>
      rw [hsw] at h
      cases tools with
      | none =>
        simp only [] at h
        rcases hcalls : (b.build (b.completion config.llm
            (_clip messages (b.get_context_size config)) none tool_choice)
            messages).tool_calls with _ | ⟨_ | ⟨tc, tcs⟩⟩
        · rw [hcalls] at h
          simp only [] at h
          injection h with h1 h2
          subst h2
          exact ⟨messages, Or.inl rfl, Or.inl ⟨_, rfl⟩⟩
        · rw [hcalls] at h
          simp only [] at h
          injection h with h1 h2
          subst h2
          exact ⟨messages, Or.inl rfl, Or.inl ⟨_, rfl⟩⟩
        · rw [hcalls] at h
          simp only [] at h
          cases hrun : _run_tools (defaultRetrieve b) (tc :: tcs) config with
          | error e => rw [hrun] at h; exact RagOutcome.noConfusion h
          | ok tms =>
            rw [hrun] at h
            simp only [List.append_assoc, List.singleton_append] at h
            injection h with h1 h2
            subst h2
            obtain ⟨hs1, hs2⟩ := run_tools_shape (defaultRetrieve b) (tc :: tcs) config tms hrun
            exact ⟨messages, Or.inl rfl, Or.inr ⟨_, tc :: tcs, tms, _, rfl, hcalls, hs1, hs2⟩⟩
      | some t =>
        simp only [] at h
        cases hlast : (_clip messages (b.get_context_size config)).getLast? with
        | none =>
          rw [hlast] at h
          exact RagOutcome.noConfusion h
        | some m =>
          rw [hlast] at h
          simp only [] at h
          cases hcont : m.content with
          | none =>
            rw [hcont] at h
            exact RagOutcome.noConfusion h
          | some c =>
            rw [hcont] at h
            simp only [] at h
            have hclipne : _clip messages (b.get_context_size config) ≠ [] := by
              intro hnil
              rw [hnil] at hlast
              exact Option.noConfusion hlast
            have hmsglast : messages.getLast? = some m := by
              rw [suffix_getLast?_eq (clip_suffix messages (b.get_context_size config)) hclipne]
              exact hlast
            set m2 : Message := { m with content := some (c ++ toolsDirective b t) } with hm2
            set M1 : List Message := messages.dropLast ++ [m2] with hM1
            set C1 : List Message :=
              (_clip messages (b.get_context_size config)).dropLast ++ [m2] with hC1
            have hentry : M1 = messages ∨
                ∃ m0 c0 t0, messages.getLast? = some m0 ∧ m0.content = some c0 ∧
                  M1 = messages.dropLast ++
                    [{ m0 with content := some (c0 ++ toolsDirective b t0) }] :=
              Or.inr ⟨m, c, t, hmsglast, hcont, rfl⟩
            rcases hcalls : (b.build (b.completion config.llm C1 (some t) tool_choice)
                M1).tool_calls with _ | ⟨_ | ⟨tc, tcs⟩⟩
            · rw [hcalls] at h
              simp only [] at h
              injection h with h1 h2
              subst h2
              exact ⟨M1, hentry, Or.inl ⟨_, rfl⟩⟩
            · rw [hcalls] at h
              simp only [] at h
              injection h with h1 h2
              subst h2
              exact ⟨M1, hentry, Or.inl ⟨_, rfl⟩⟩
            · rw [hcalls] at h
              simp only [] at h
              cases hrun : _run_tools (defaultRetrieve b) (tc :: tcs) config with
              | error e => rw [hrun] at h; exact RagOutcome.noConfusion h
              | ok tms =>
                rw [hrun] at h
                simp only [List.append_assoc, List.singleton_append] at h
                injection h with h1 h2
                subst h2
                obtain ⟨hs1, hs2⟩ :=
                  run_tools_shape (defaultRetrieve b) (tc :: tcs) config tms hrun
                exact ⟨M1, hentry, Or.inr ⟨_, tc :: tcs, tms, _, rfl, hcalls, hs1, hs2⟩⟩

/-- C9 (counterexample): under the llama-cpp-python workaround a completed run
rewrites the content of the entry history's final message, so the entry
messages do not keep their content unchanged. -/
theorem rag_entry_mutated_cex :
    rag exB9 [exUser] exCfg9 = RagOutcome.ok ["ok"] [exUserMutated, exAsst] ∧
    [exUserMutated, exAsst].head? ≠ some exUser := by
  decide

/-- C9 (witness): the shape theorem applied to a concrete completed
llama-cpp-python run. -/
theorem rag_append_shape_witness :
    ∃ entry : List Message,
      (entry = [exUser] ∨
        ∃ m c t, [exUser].getLast? = some m ∧ m.content = some c ∧
          entry = [exUser].dropLast ++
            [{ m with content := some (c ++ toolsDirective exB9 t) }]) ∧
      ((∃ a, [exUserMutated, exAsst] = entry ++ [a]) ∨
        ∃ resp calls tms a,
          [exUserMutated, exAsst] = entry ++ resp.to_dict :: (tms ++ [a]) ∧
          BuiltMessage.tool_calls resp = some calls ∧
          tms.map (fun mm => mm.tool_call_id) = calls.map (fun c0 => some c0.id) ∧
          tms.map (fun mm => mm.role) = calls.map (fun _ => "tool")) :=
  rag_append_shape exB9 [exUser] exCfg9 ["ok"] [exUserMutated, exAsst] (by decide)

end Raglite

